import Mathlib

/-!
Verification of the sentiment feedback pipeline (`src/feedback.py`).

The Python program is shallowly embedded: cells are `Option String`
(`none` models a pandas NaN / Python None), sentiment scores are `ℚ`
(the float arithmetic involved in the claims is only comparisons against
the decimal constants 0.2 and 0.7, an average, and fixed literals, all
exact in `ℚ`), and the external collaborators — the language detector,
the remote translator, the two polarity scorers, and the file-system
readers — are explicit function parameters.  A Python exception is the
`error` branch of `Except Exc`; the one exception class the program
distinguishes (`LangDetectException`) is the constructor
`Exc.langDetect`, and every other exception is `Exc.other`.

Python string primitives (`str.strip`, `str.lower`, `str.endswith`) are
embedded as `pyStrip`, `pyLower`, `pyEndsWith` over the character list
of a `String`, because the claims need them to evaluate inside the
kernel; they implement exactly Python's semantics on the ASCII texts the
claims are about (whitespace = space/tab/newline/carriage-return,
lower-casing of ASCII letters, case-sensitive suffix test).
-/

namespace Feedback

/-- Python `str.strip()`: remove leading and trailing whitespace. -/
def pyStrip (s : String) : String :=
  ⟨((s.data.dropWhile Char.isWhitespace).reverse.dropWhile Char.isWhitespace).reverse⟩

/-- Python `str.lower()`: lower-case every character. -/
def pyLower (s : String) : String :=
  ⟨s.data.map Char.toLower⟩

/-- Python `str.endswith(suffix)`: case-sensitive suffix test. -/
def pyEndsWith (s suffix : String) : Bool :=
  suffix.data.isSuffixOf s.data

/-- A Python exception value: `langDetect` is `LangDetectException`
(the only class `analyze_sentiment` catches); `other` is any other
exception, e.g. a network failure raised by the translator. -/
inductive Exc where
  | langDetect : Exc
  | other : String → Exc
deriving DecidableEq

instance instDecEqExcept {ε α : Type} [DecidableEq ε] [DecidableEq α] :
    DecidableEq (Except ε α) := fun a b =>
  match a, b with
  | .ok x, .ok y => if h : x = y then .isTrue (by rw [h]) else .isFalse (by simp [h])
  | .error e, .error f => if h : e = f then .isTrue (by rw [h]) else .isFalse (by simp [h])
  | .ok _, .error _ => .isFalse (by simp)
  | .error _, .ok _ => .isFalse (by simp)

/-- Fast-path negative tokens, line 26 of `feedback.py`. -/
def negTokens : List String := ["no", "nah", "not really", "never"]

/-- Fast-path positive tokens, line 28 of `feedback.py`. -/
def posTokens : List String := ["yes", "yeah", "sure", "definitely"]

/-- The threshold chain of lines 44–53 of `feedback.py`: the
`if/elif/else` ladder mapping a sentiment score to a category label. -/
def thresholdCat (s : ℚ) : String :=
  if s ≥ 7/10 then "Very Positive"
  else if 2/10 ≤ s ∧ s < 7/10 then "Positive"
  else if -2/10 < s ∧ s < 2/10 then "Neutral"
  else if -7/10 < s ∧ s ≤ -2/10 then "Negative"
  else "Very Negative"

/-- Lines 31–37 of `feedback.py`: the `try` block around detection and
translation.  `detect` raising is the `error` branch of `det`;
`translator.translate` raising is the `error` branch of `tr` (applied to
the detected language and the text).  The `except LangDetectException:
pass` clause catches exactly `Exc.langDetect` from either call and
leaves `text` unchanged; any other exception propagates. -/
def translateStep (det : String → Except Exc String)
    (tr : String → String → Except Exc String) (text : String) :
    Except Exc String :=
  match det text with
  | .error e => if e = Exc.langDetect then .ok text else .error e
  | .ok lang =>
    if lang ≠ "en" then
      match tr lang text with
      | .ok translated => .ok translated
      | .error e => if e = Exc.langDetect then .ok text else .error e
    else .ok text

/-- Lines 18–53 of `feedback.py` (`analyze_sentiment`).  The input is
`none` for a missing (NaN/None) cell, matching `pd.isna`.  `vader` and
`textblob` are the two polarity scorers applied to the (possibly
translated) text.  The result is `ok (category, score)`, or `error e`
when an uncaught Python exception escapes the function. -/
def analyze_sentiment (det : String → Except Exc String)
    (tr : String → String → Except Exc String)
    (vader : String → ℚ) (textblob : String → ℚ)
    (text : Option String) : Except Exc (String × ℚ) :=
  match text with
  | none => .ok ("Neutral", 0)
  | some raw =>
    if pyStrip raw = "" then .ok ("Neutral", 0)
    else
      let text := pyLower (pyStrip raw)
      if text ∈ negTokens then .ok ("Negative", -3/10)
      else if text ∈ posTokens then .ok ("Positive", 3/10)
      else
        match translateStep det tr text with
        | .error e => .error e
        | .ok scored =>
          let sentiment_score := (vader scored + textblob scored) / 2
          .ok (thresholdCat sentiment_score, sentiment_score)

/-- A table cell: `none` is a pandas NaN (dropped by `dropna`). -/
abbrev Cell := Option String

/-- A loaded data frame: ordered columns, each a header name with its
cells in row order. -/
abbrev Table := List (String × List Cell)

/-- One row of the rendered report: original text, sentiment label,
rounded score (line 104 of `feedback.py`). -/
abbrev ScoredRow := String × String × ℚ

/-- The report abstraction produced by `process_feedback`: one entry per
analyzed column, in column order. -/
abbrev Report := List (String × List ScoredRow)

/-- The identity columns dropped on line 94 of `feedback.py`. -/
def identityCols : List String := ["Timestamp", "Name", "Roll No", "Class"]

/-- Round a rational to the nearest integer, ties to even — the rounding
Python's built-in `round` uses. -/
def roundHalfEven (x : ℚ) : ℤ :=
  if x - Int.floor x < 1/2 then Int.floor x
  else if 1/2 < x - Int.floor x then Int.floor x + 1
  else if Int.floor x % 2 = 0 then Int.floor x else Int.floor x + 1

/-- Python `round(x, 2)` on the idealized (exact) score. -/
def round2 (x : ℚ) : ℚ :=
  (roundHalfEven (x * 100) : ℚ) / 100

/-- Sequential effectful map: apply `f` left to right, stopping at the
first exception, exactly as a Python `for` loop over the calls does. -/
def mapE {α β : Type} (f : α → Except Exc β) : List α → Except Exc (List β)
  | [] => .ok []
  | a :: as =>
    match f a with
    | .error e => .error e
    | .ok b =>
      match mapE f as with
      | .error e => .error e
      | .ok bs => .ok (b :: bs)

/-- Line 103–104 of `feedback.py`: classify one (already stringified)
cell and build its report row `[text, sentiment, round(score, 2)]`. -/
def scoreCell (det : String → Except Exc String)
    (tr : String → String → Except Exc String)
    (vader textblob : String → ℚ) (text : String) : Except Exc ScoredRow :=
  match analyze_sentiment det tr vader textblob (some text) with
  | .error e => .error e
  | .ok (sentiment, score) => .ok (text, sentiment, round2 score)

/-- Line 94 of `feedback.py`: `df.drop(columns=['Timestamp', 'Name',
'Roll No', 'Class'], errors='ignore')` — case-sensitive exact name
match, absent names silently ignored. -/
def dropIdentity (df : Table) : Table :=
  df.filter (fun c => !(identityCols.contains c.1))

/-- Lines 101–104 of `feedback.py`: one column's `results` list —
`dropna()` keeps exactly the non-null cells in row order (`filterMap
id`), then each is classified. -/
def analyzeColumn (det : String → Except Exc String)
    (tr : String → String → Except Exc String)
    (vader textblob : String → ℚ) (c : String × List Cell) :
    Except Exc (String × List ScoredRow) :=
  match mapE (scoreCell det tr vader textblob) (c.2.filterMap id) with
  | .error e => .error e
  | .ok results => .ok (c.1, results)

/-- Lines 94–109 of `feedback.py`: the report built from a loaded
table — identity columns dropped, every remaining column analyzed in
order.  An uncaught per-cell exception aborts the whole batch (there is
no `try` in `process_feedback`). -/
def processReport (det : String → Except Exc String)
    (tr : String → String → Except Exc String)
    (vader textblob : String → ℚ) (df : Table) : Except Exc Report :=
  mapE (analyzeColumn det tr vader textblob) (dropIdentity df)

/-- Pandas `df.empty`: true when the frame has no columns or no rows. -/
def dfEmpty (df : Table) : Bool :=
  df.isEmpty || df.all (fun c => c.2.isEmpty)

/-- Lines 85–109 of `feedback.py` (`process_feedback`) after the load:
the argument is `load_file`'s result; `none` or an empty frame is
rejected on line 88 with no report produced, otherwise the report of
lines 94–109 is built. -/
def process_feedback (det : String → Except Exc String)
    (tr : String → String → Except Exc String)
    (vader textblob : String → ℚ) (df : Option Table) :
    Option (Except Exc Report) :=
  match df with
  | none => none
  | some t => if dfEmpty t then none else some (processReport det tr vader textblob t)

/-- The file-system collaborators of `load_file`: `pd.read_excel`,
`pd.read_csv` (also used on an extracted archive member, keyed by its
name), and `zipfile.ZipFile(...).namelist()`.  An `error` branch is the
call raising. -/
structure FileSystem where
  readExcel : String → Except Exc Table
  readCsv : String → Except Exc Table
  zipNamelist : String → Except Exc (List String)

/-- Lines 55–83 of `feedback.py` (`load_file`).  The outer
`try/except Exception` turns every raised exception into a printed
diagnostic and `None`, so the embedding returns `Option Table` with
`none` for every failure path (unsupported extension, archive without a
usable member, reader or archive error).  Dispatch is by case-sensitive
`str.endswith` on `.xlsx`, `.csv`, `.zip`; inside an archive the first
member whose name ends in `.xlsx` or `.csv` is read. -/
def load_file (fs : FileSystem) (file_path : String) : Option Table :=
  if pyEndsWith file_path ".xlsx" then (fs.readExcel file_path).toOption
  else if pyEndsWith file_path ".csv" then (fs.readCsv file_path).toOption
  else if pyEndsWith file_path ".zip" then
    match fs.zipNamelist file_path with
    | .error _ => none
    | .ok names =>
      match names.filter (fun f => pyEndsWith f ".xlsx" || pyEndsWith f ".csv") with
      | [] => none
      | extracted_file :: _ =>
        if pyEndsWith extracted_file ".xlsx" then (fs.readExcel extracted_file).toOption
        else (fs.readCsv extracted_file).toOption
  else none

/-- A detector that always answers English (no translation attempted). -/
def detEn : String → Except Exc String := fun _ => .ok "en"

/-- A detector that always answers Spanish. -/
def detEs : String → Except Exc String := fun _ => .ok "es"

/-- A detector that always raises `LangDetectException`. -/
def detRaise : String → Except Exc String := fun _ => .error Exc.langDetect

/-- A translator that returns its input unchanged. -/
def trId : String → String → Except Exc String := fun _ t => .ok t

/-- A translator whose network call raises (not a `LangDetectException`). -/
def trFail : String → String → Except Exc String :=
  fun _ _ => .error (Exc.other "network error")

/-- A polarity scorer that always returns 0. -/
def zeroScore : String → ℚ := fun _ => 0

/-- A polarity scorer that always returns 1/2. -/
def halfScore : String → ℚ := fun _ => 1/2

/-- The five category labels of the data model. -/
def sentimentLabels : List String :=
  ["Very Negative", "Negative", "Neutral", "Positive", "Very Positive"]

/-- The threshold table exactly as the specification words it: the five
score bands, written independently of the code's `if/elif/else` chain so
the two can be compared. -/
def specThresholdBand (cat : String) (s : ℚ) : Prop :=
  (cat = "Very Positive" ∧ 7/10 ≤ s) ∨
  (cat = "Positive" ∧ 2/10 ≤ s ∧ s < 7/10) ∨
  (cat = "Neutral" ∧ -2/10 < s ∧ s < 2/10) ∨
  (cat = "Negative" ∧ -7/10 < s ∧ s ≤ -2/10) ∨
  (cat = "Very Negative" ∧ s ≤ -7/10)

lemma thresholdCat_mem (s : ℚ) : thresholdCat s ∈ sentimentLabels := by
  unfold thresholdCat sentimentLabels
  split_ifs <;> simp

lemma specThresholdBand_thresholdCat (s : ℚ) :
    specThresholdBand (thresholdCat s) s := by
  unfold thresholdCat specThresholdBand
  split_ifs with h1 h2 h3 h4
  · exact Or.inl ⟨rfl, h1⟩
  · exact Or.inr (Or.inl ⟨rfl, h2⟩)
  · exact Or.inr (Or.inr (Or.inl ⟨rfl, h3⟩))
  · exact Or.inr (Or.inr (Or.inr (Or.inl ⟨rfl, h4⟩)))
  · refine Or.inr (Or.inr (Or.inr (Or.inr ⟨rfl, ?_⟩)))
    have hs7 : s < 7/10 := lt_of_not_ge h1
    have hs2 : s < 2/10 := by
      by_contra hd
      push_neg at hd
      exact h2 ⟨hd, hs7⟩
    have hsm2 : s ≤ -2/10 := by
      by_contra hd
      push_neg at hd
      exact h3 ⟨hd, hs2⟩
    by_contra hd
    push_neg at hd
    exact h4 ⟨hd, hsm2⟩

lemma specThresholdBand_unique (c₁ c₂ : String) (s : ℚ)
    (h₁ : specThresholdBand c₁ s) (h₂ : specThresholdBand c₂ s) : c₁ = c₂ := by
  rcases h₁ with ⟨rfl, hb⟩ | ⟨rfl, hb⟩ | ⟨rfl, hb⟩ | ⟨rfl, hb⟩ | ⟨rfl, hb⟩ <;>
    rcases h₂ with ⟨rfl, hc⟩ | ⟨rfl, hc⟩ | ⟨rfl, hc⟩ | ⟨rfl, hc⟩ | ⟨rfl, hc⟩ <;>
    first
      | rfl
      | (exfalso
         first
           | (obtain ⟨hb1, hb2⟩ := hb
              first
                | (obtain ⟨hc1, hc2⟩ := hc; linarith)
                | linarith)
           | (obtain ⟨hc1, hc2⟩ := hc; linarith)
           | linarith)

/-- Inversion on a successful run of `analyze_sentiment`: the result
comes from exactly one of the five code paths (missing input, empty
guard, negative fast path, positive fast path, scoring). -/
lemma analyze_ok_cases (det : String → Except Exc String)
    (tr : String → String → Except Exc String) (v tb : String → ℚ)
    (t : Option String) (cat : String) (sc : ℚ)
    (h : analyze_sentiment det tr v tb t = .ok (cat, sc)) :
    (t = none ∧ cat = "Neutral" ∧ sc = 0) ∨
    (∃ raw, t = some raw ∧ pyStrip raw = "" ∧ cat = "Neutral" ∧ sc = 0) ∨
    (∃ raw, t = some raw ∧ pyStrip raw ≠ "" ∧ pyLower (pyStrip raw) ∈ negTokens ∧
      cat = "Negative" ∧ sc = -3/10) ∨
    (∃ raw, t = some raw ∧ pyStrip raw ≠ "" ∧ pyLower (pyStrip raw) ∉ negTokens ∧
      pyLower (pyStrip raw) ∈ posTokens ∧ cat = "Positive" ∧ sc = 3/10) ∨
    (∃ raw scored, t = some raw ∧ pyStrip raw ≠ "" ∧
      pyLower (pyStrip raw) ∉ negTokens ∧ pyLower (pyStrip raw) ∉ posTokens ∧
      translateStep det tr (pyLower (pyStrip raw)) = .ok scored ∧
      sc = (v scored + tb scored) / 2 ∧ cat = thresholdCat sc) := by
  cases t with
  | none =>
    simp only [analyze_sentiment, Except.ok.injEq, Prod.mk.injEq] at h
    exact Or.inl ⟨rfl, h.1.symm, h.2.symm⟩
  | some raw =>
    simp only [analyze_sentiment] at h
    split_ifs at h with hguard hneg hpos
    · simp only [Except.ok.injEq, Prod.mk.injEq] at h
      exact Or.inr (Or.inl ⟨raw, rfl, hguard, h.1.symm, h.2.symm⟩)
    · simp only [Except.ok.injEq, Prod.mk.injEq] at h
      exact Or.inr (Or.inr (Or.inl ⟨raw, rfl, hguard, hneg, h.1.symm, h.2.symm⟩))
    · simp only [Except.ok.injEq, Prod.mk.injEq] at h
      exact Or.inr (Or.inr (Or.inr (Or.inl
        ⟨raw, rfl, hguard, hneg, hpos, h.1.symm, h.2.symm⟩)))
    · split at h
      · simp at h
      · rename_i scored htr
        simp only [Except.ok.injEq, Prod.mk.injEq] at h
        refine Or.inr (Or.inr (Or.inr (Or.inr
          ⟨raw, scored, rfl, hguard, hneg, hpos, htr, h.2.symm, ?_⟩)))
        rw [← h.1, ← h.2]

/-- Inversion on a failing run of `analyze_sentiment`: an exception can
only come out of the detection/translation block, on an input that
passed the guard and both fast paths. -/
lemma analyze_error_cases (det : String → Except Exc String)
    (tr : String → String → Except Exc String) (v tb : String → ℚ)
    (t : Option String) (e : Exc)
    (h : analyze_sentiment det tr v tb t = .error e) :
    ∃ raw, t = some raw ∧ pyStrip raw ≠ "" ∧
      pyLower (pyStrip raw) ∉ negTokens ∧ pyLower (pyStrip raw) ∉ posTokens ∧
      translateStep det tr (pyLower (pyStrip raw)) = .error e := by
  cases t with
  | none => simp [analyze_sentiment] at h
  | some raw =>
    simp only [analyze_sentiment] at h
    split_ifs at h with hguard hneg hpos
    split at h
    · rename_i e' htr
      simp only [Except.error.injEq] at h
      exact ⟨raw, rfl, hguard, hneg, hpos, h ▸ htr⟩
    · exact Except.noConfusion h

/-- The `except LangDetectException` clause never lets `Exc.langDetect`
out of the `try` block. -/
lemma translateStep_error_ne (det : String → Except Exc String)
    (tr : String → String → Except Exc String) (text : String) (e : Exc)
    (h : translateStep det tr text = .error e) : e ≠ Exc.langDetect := by
  unfold translateStep at h
  split at h
  next e₁ heq =>
    split_ifs at h with hl
    simp only [Except.error.injEq] at h
    exact h ▸ hl
  next lang heq =>
    split_ifs at h with hen
    split at h
    next t₂ htr => exact Except.noConfusion h
    next e₂ htr =>
      split_ifs at h with hl
      simp only [Except.error.injEq] at h
      exact h ▸ hl

/-- When detection raises `LangDetectException`, the `try` block falls
through with the text unchanged. -/
lemma translateStep_langDetect (det : String → Except Exc String)
    (tr : String → String → Except Exc String) (text : String)
    (h : det text = .error Exc.langDetect) :
    translateStep det tr text = .ok text := by
  simp [translateStep, h]

/-- C1: whenever `analyze_sentiment` returns, the returned category is
one of the five fixed labels; when the result was produced by the
thresholding step (the input is not missing, not blank after trimming,
and not caught by either fast-path lexicon), the category is exactly the
one the threshold chain assigns to the returned score, which lies in the
specification's band for that label; and the specification's five bands
are non-overlapping and cover every score. -/
theorem analyze_sentiment_labels_and_thresholds (det : String → Except Exc String)
    (tr : String → String → Except Exc String) (v tb : String → ℚ)
    (t : Option String) (cat : String) (sc : ℚ)
    (h : analyze_sentiment det tr v tb t = .ok (cat, sc)) :
    cat ∈ sentimentLabels ∧
    (∀ raw, t = some raw → pyStrip raw ≠ "" →
      pyLower (pyStrip raw) ∉ negTokens → pyLower (pyStrip raw) ∉ posTokens →
      cat = thresholdCat sc ∧ specThresholdBand cat sc) ∧
    (∀ r : ℚ, specThresholdBand (thresholdCat r) r) ∧
    (∀ r : ℚ, ∀ c₁ c₂, specThresholdBand c₁ r → specThresholdBand c₂ r → c₁ = c₂) := by
  refine ⟨?_, ?_, fun r => specThresholdBand_thresholdCat r,
    fun r c₁ c₂ h₁ h₂ => specThresholdBand_unique c₁ c₂ r h₁ h₂⟩
  · rcases analyze_ok_cases det tr v tb t cat sc h with
      ⟨_, hcat, _⟩ | ⟨r, _, _, hcat, _⟩ | ⟨r, _, _, _, hcat, _⟩ |
      ⟨r, _, _, _, _, hcat, _⟩ | ⟨r, s, _, _, _, _, _, _, hcat⟩
    · rw [hcat]; decide
    · rw [hcat]; decide
    · rw [hcat]; decide
    · rw [hcat]; decide
    · rw [hcat]; exact thresholdCat_mem _
  · intro raw hraw hne hnegm hposm
    rcases analyze_ok_cases det tr v tb t cat sc h with
      ⟨heq, _, _⟩ | ⟨r, heq, hb, _, _⟩ | ⟨r, heq, _, hmem, _, _⟩ |
      ⟨r, heq, _, _, hmem, _, _⟩ | ⟨r, s, heq, _, _, _, _, _, hcat⟩
    · rw [hraw] at heq
      exact Option.noConfusion heq
    · rw [hraw] at heq
      cases heq
      exact absurd hb hne
    · rw [hraw] at heq
      cases heq
      exact absurd hmem hnegm
    · rw [hraw] at heq
      cases heq
      exact absurd hmem hposm
    · refine ⟨hcat, ?_⟩
      rw [hcat]
      exact specThresholdBand_thresholdCat sc

/-- C1 witness: the theorem applied to the concrete run
`classify("Nah")` under the always-English detector. -/
theorem analyze_sentiment_labels_and_thresholds_witness :
    "Negative" ∈ sentimentLabels :=
  (analyze_sentiment_labels_and_thresholds detEn trId zeroScore zeroScore
    (some "Nah") "Negative" (-3/10) rfl).1

/-- C2 counterexample: a failing translation call (a network error, not
a `LangDetectException`) escapes `analyze_sentiment` — the call on
"hola amigo" with a Spanish-detecting detector and a raising translator
produces an uncaught exception instead of a (category, score) pair, so
the claim that translation failures are contained is false. -/
theorem translation_failure_escapes :
    analyze_sentiment detEs trFail zeroScore zeroScore (some "hola amigo") =
      .error (Exc.other "network error") := rfl

/-- C2 amended: only `LangDetectException` is caught.  Any exception
that escapes `analyze_sentiment` is a non-`LangDetectException` raised
inside the detection/translation block; when detection raises
`LangDetectException` the function still returns a pair, scoring the
untranslated (normalized) text. -/
theorem analyze_sentiment_exception_policy (det : String → Except Exc String)
    (tr : String → String → Except Exc String) (v tb : String → ℚ)
    (raw : String) (e : Exc) :
    (analyze_sentiment det tr v tb (some raw) = .error e →
      e ≠ Exc.langDetect ∧ translateStep det tr (pyLower (pyStrip raw)) = .error e) ∧
    (det (pyLower (pyStrip raw)) = .error Exc.langDetect →
      ∃ cat sc, analyze_sentiment det tr v tb (some raw) = .ok (cat, sc)) ∧
    (det (pyLower (pyStrip raw)) = .error Exc.langDetect → pyStrip raw ≠ "" →
      pyLower (pyStrip raw) ∉ negTokens → pyLower (pyStrip raw) ∉ posTokens →
      analyze_sentiment det tr v tb (some raw) =
        .ok (thresholdCat ((v (pyLower (pyStrip raw)) + tb (pyLower (pyStrip raw))) / 2),
          (v (pyLower (pyStrip raw)) + tb (pyLower (pyStrip raw))) / 2)) := by
  refine ⟨?_, ?_, ?_⟩
  · intro h
    obtain ⟨r, heq, _, _, _, htr⟩ := analyze_error_cases det tr v tb (some raw) e h
    cases heq
    exact ⟨translateStep_error_ne det tr _ e htr, htr⟩
  · intro hdet
    by_cases hg : pyStrip raw = ""
    · exact ⟨"Neutral", 0, by simp [analyze_sentiment, hg]⟩
    · by_cases hneg : pyLower (pyStrip raw) ∈ negTokens
      · exact ⟨"Negative", -3/10, by simp [analyze_sentiment, hg, hneg]⟩
      · by_cases hpos : pyLower (pyStrip raw) ∈ posTokens
        · exact ⟨"Positive", 3/10, by simp [analyze_sentiment, hg, hneg, hpos]⟩
        · have htr := translateStep_langDetect det tr (pyLower (pyStrip raw)) hdet
          exact ⟨thresholdCat ((v (pyLower (pyStrip raw)) + tb (pyLower (pyStrip raw))) / 2),
            (v (pyLower (pyStrip raw)) + tb (pyLower (pyStrip raw))) / 2,
            by simp [analyze_sentiment, hg, hneg, hpos, htr]⟩
  · intro hdet hg hneg hpos
    have htr := translateStep_langDetect det tr (pyLower (pyStrip raw)) hdet
    simp [analyze_sentiment, hg, hneg, hpos, htr]

/-- C2 witness: the amended theorem applied to two concrete runs — the
raising translator on detected-Spanish text (the exception that gets
out), and the always-raising detector (contained, scored
untranslated). -/
theorem analyze_sentiment_exception_policy_witness :
    (Exc.other "network error" ≠ Exc.langDetect ∧
      translateStep detEs trFail (pyLower (pyStrip "hola amigo")) =
        .error (Exc.other "network error")) ∧
    analyze_sentiment detRaise trId zeroScore zeroScore (some "hola amigo") =
      .ok (thresholdCat ((zeroScore (pyLower (pyStrip "hola amigo")) +
          zeroScore (pyLower (pyStrip "hola amigo"))) / 2),
        (zeroScore (pyLower (pyStrip "hola amigo")) +
          zeroScore (pyLower (pyStrip "hola amigo"))) / 2) :=
  ⟨(analyze_sentiment_exception_policy detEs trFail zeroScore zeroScore "hola amigo"
      (Exc.other "network error")).1 rfl,
    (analyze_sentiment_exception_policy detRaise trId zeroScore zeroScore "hola amigo"
      (Exc.other "unused")).2.2 rfl (by decide) (by decide) (by decide)⟩

/-- C3: a missing cell, or one whose text trims to empty, is classified
(Neutral, 0.0) immediately; the detector, translator and both scorers
are universally quantified and unused, so none of the later steps can
influence the result. -/
theorem analyze_sentiment_empty_guard (det : String → Except Exc String)
    (tr : String → String → Except Exc String) (v tb : String → ℚ)
    (t : Option String)
    (h : t = none ∨ ∃ raw, t = some raw ∧ pyStrip raw = "") :
    analyze_sentiment det tr v tb t = .ok ("Neutral", 0) := by
  rcases h with rfl | ⟨raw, rfl, hb⟩
  · rfl
  · simp [analyze_sentiment, hb]

/-- C3 witness: the guard theorem applied to the whitespace-only cell
"   ". -/
theorem analyze_sentiment_empty_guard_witness :
    analyze_sentiment detEn trId zeroScore zeroScore (some "   ") =
      .ok ("Neutral", 0) :=
  analyze_sentiment_empty_guard detEn trId zeroScore zeroScore (some "   ")
    (Or.inr ⟨"   ", rfl, by decide⟩)

/-- C4: an input whose trimmed, lower-cased text is exactly one of the
negative tokens returns (Negative, -0.3); one of the positive tokens,
(Positive, 0.3); and the concrete run on "no way" (which merely contains
"no") goes to the scorers instead, so matching is exact, never
substring. -/
theorem analyze_sentiment_fast_path (det : String → Except Exc String)
    (tr : String → String → Except Exc String) (v tb : String → ℚ)
    (raw : String) :
    (pyLower (pyStrip raw) ∈ negTokens →
      analyze_sentiment det tr v tb (some raw) = .ok ("Negative", -3/10)) ∧
    (pyLower (pyStrip raw) ∈ posTokens →
      analyze_sentiment det tr v tb (some raw) = .ok ("Positive", 3/10)) ∧
    analyze_sentiment detEn trId halfScore halfScore (some "no way") =
      .ok ("Positive", 1/2) := by
  refine ⟨?_, ?_, ?_⟩
  · intro hmem
    have hne : pyStrip raw ≠ "" := by
      intro hb
      rw [hb] at hmem
      revert hmem
      decide
    simp [analyze_sentiment, hne, hmem]
  · intro hmem
    have hne : pyStrip raw ≠ "" := by
      intro hb
      rw [hb] at hmem
      revert hmem
      decide
    have hdisj : ∀ s ∈ negTokens, s ∉ posTokens := by decide
    have hneg : pyLower (pyStrip raw) ∉ negTokens :=
      fun hmem2 => absurd hmem (hdisj _ hmem2)
    simp [analyze_sentiment, hne, hneg, hmem]
  · have ht : thresholdCat (1/2) = "Positive" := by
      unfold thresholdCat
      norm_num
    have h1 : analyze_sentiment detEn trId halfScore halfScore (some "no way") =
        .ok (thresholdCat (((1:ℚ)/2 + 1/2)/2), ((1:ℚ)/2 + 1/2)/2) := rfl
    have h2 : ((1:ℚ)/2 + 1/2)/2 = 1/2 := by norm_num
    rw [h1, h2, ht]

/-- C4 witness: the fast-path theorem applied to "Nah" (case-insensitive
negative token) and "Yes" (positive token). -/
theorem analyze_sentiment_fast_path_witness :
    analyze_sentiment detEn trId zeroScore zeroScore (some "Nah") =
      .ok ("Negative", -3/10) ∧
    analyze_sentiment detEn trId zeroScore zeroScore (some "Yes") =
      .ok ("Positive", 3/10) :=
  ⟨(analyze_sentiment_fast_path detEn trId zeroScore zeroScore "Nah").1 (by decide),
    (analyze_sentiment_fast_path detEn trId zeroScore zeroScore "Yes").2.1 (by decide)⟩

/-- C9: every pair `analyze_sentiment` can return — empty-guard result,
fast-path literals and thresholded scores alike — satisfies the
specification's score-to-category band, unconditionally. -/
theorem analyze_sentiment_band_invariant (det : String → Except Exc String)
    (tr : String → String → Except Exc String) (v tb : String → ℚ)
    (t : Option String) (cat : String) (sc : ℚ)
    (h : analyze_sentiment det tr v tb t = .ok (cat, sc)) :
    specThresholdBand cat sc := by
  rcases analyze_ok_cases det tr v tb t cat sc h with
    ⟨_, hcat, hsc⟩ | ⟨r, _, _, hcat, hsc⟩ | ⟨r, _, _, _, hcat, hsc⟩ |
    ⟨r, _, _, _, _, hcat, hsc⟩ | ⟨r, s, _, _, _, _, _, hsc, hcat⟩
  · rw [hcat, hsc]
    exact Or.inr (Or.inr (Or.inl ⟨rfl, by norm_num, by norm_num⟩))
  · rw [hcat, hsc]
    exact Or.inr (Or.inr (Or.inl ⟨rfl, by norm_num, by norm_num⟩))
  · rw [hcat, hsc]
    exact Or.inr (Or.inr (Or.inr (Or.inl ⟨rfl, by norm_num, by norm_num⟩)))
  · rw [hcat, hsc]
    exact Or.inr (Or.inl ⟨rfl, by norm_num, by norm_num⟩)
  · rw [hcat]
    exact specThresholdBand_thresholdCat sc

/-- C9 witness: the invariant applied to the empty-guard run on a
missing cell. -/
theorem analyze_sentiment_band_invariant_witness :
    specThresholdBand "Neutral" 0 :=
  analyze_sentiment_band_invariant detEn trId zeroScore zeroScore none "Neutral" 0 rfl

lemma mapE_ok_length {α β : Type} (f : α → Except Exc β) (xs : List α)
    (ys : List β) (h : mapE f xs = .ok ys) : ys.length = xs.length := by
  induction xs generalizing ys with
  | nil =>
    simp only [mapE, Except.ok.injEq] at h
    rw [← h]
    rfl
  | cons a as ih =>
    simp only [mapE] at h
    split at h
    next e heq => exact Except.noConfusion h
    next b hfb =>
      split at h
      next e heq => exact Except.noConfusion h
      next bs hbs =>
        simp only [Except.ok.injEq] at h
        rw [← h]
        simp [ih bs hbs]

lemma mapE_ok_get {α β : Type} (f : α → Except Exc β) (xs : List α)
    (ys : List β) (h : mapE f xs = .ok ys) :
    ∀ i (h1 : i < xs.length) (h2 : i < ys.length),
      f (xs.get ⟨i, h1⟩) = .ok (ys.get ⟨i, h2⟩) := by
  induction xs generalizing ys with
  | nil =>
    intro i h1
    exact absurd h1 (by simp)
  | cons a as ih =>
    simp only [mapE] at h
    split at h
    next e heq => exact Except.noConfusion h
    next b hfb =>
      split at h
      next e heq => exact Except.noConfusion h
      next bs hbs =>
        simp only [Except.ok.injEq] at h
        subst h
        intro i h1 h2
        cases i with
        | zero => simpa using hfb
        | succ n =>
          exact ih bs hbs n (by simpa using h1) (by simpa using h2)

lemma mapE_ok_mem {α β : Type} (f : α → Except Exc β) (xs : List α)
    (ys : List β) (h : mapE f xs = .ok ys) (a : α) (ha : a ∈ xs) :
    ∃ b, f a = .ok b ∧ b ∈ ys := by
  induction xs generalizing ys with
  | nil => simp at ha
  | cons x as ih =>
    simp only [mapE] at h
    split at h
    next e heq => exact Except.noConfusion h
    next b hfb =>
      split at h
      next e heq => exact Except.noConfusion h
      next bs hbs =>
        simp only [Except.ok.injEq] at h
        subst h
        rcases List.mem_cons.mp ha with rfl | hmem
        · exact ⟨b, hfb, List.mem_cons_self b bs⟩
        · obtain ⟨b₂, hfb₂, hb₂⟩ := ih bs hbs hmem
          exact ⟨b₂, hfb₂, List.mem_cons_of_mem b hb₂⟩

lemma mapE_ok_map_rel {α β γ : Type} (f : α → Except Exc β) (p : α → γ)
    (q : β → γ) (hpq : ∀ a b, f a = .ok b → q b = p a) (xs : List α)
    (ys : List β) (h : mapE f xs = .ok ys) : ys.map q = xs.map p := by
  induction xs generalizing ys with
  | nil =>
    simp only [mapE, Except.ok.injEq] at h
    rw [← h]
    rfl
  | cons a as ih =>
    simp only [mapE] at h
    split at h
    next e heq => exact Except.noConfusion h
    next b hfb =>
      split at h
      next e heq => exact Except.noConfusion h
      next bs hbs =>
        simp only [Except.ok.injEq] at h
        rw [← h]
        simp only [List.map_cons]
        rw [hpq a b hfb, ih bs hbs]

lemma analyzeColumn_ok (det : String → Except Exc String)
    (tr : String → String → Except Exc String) (v tb : String → ℚ)
    (c : String × List Cell) (entry : String × List ScoredRow)
    (h : analyzeColumn det tr v tb c = .ok entry) :
    entry.1 = c.1 ∧
    mapE (scoreCell det tr v tb) (c.2.filterMap id) = .ok entry.2 := by
  unfold analyzeColumn at h
  split at h
  · exact Except.noConfusion h
  · rename_i results hres
    simp only [Except.ok.injEq] at h
    rw [← h]
    exact ⟨rfl, hres⟩

lemma scoreCell_ok (det : String → Except Exc String)
    (tr : String → String → Except Exc String) (v tb : String → ℚ)
    (text : String) (row : ScoredRow)
    (h : scoreCell det tr v tb text = .ok row) :
    row.1 = text ∧
    ∃ cat sc, analyze_sentiment det tr v tb (some text) = .ok (cat, sc) ∧
      row = (text, cat, round2 sc) := by
  unfold scoreCell at h
  split at h
  · exact Except.noConfusion h
  · rename_i p cat sc hana
    simp only [Except.ok.injEq] at h
    rw [← h]
    exact ⟨rfl, cat, sc, hana, rfl⟩

lemma process_feedback_some (det : String → Except Exc String)
    (tr : String → String → Except Exc String) (v tb : String → ℚ)
    (df : Table) (rep : Report)
    (h : process_feedback det tr v tb (some df) = some (.ok rep)) :
    processReport det tr v tb df = .ok rep := by
  simp only [process_feedback] at h
  split_ifs at h
  simp only [Option.some.injEq] at h
  exact h

lemma dropIdentity_map_fst (df : Table) :
    (dropIdentity df).map Prod.fst =
      (df.map Prod.fst).filter (fun n => !(identityCols.contains n)) := by
  unfold dropIdentity
  induction df with
  | nil => rfl
  | cons c cs ih =>
    by_cases hc : c.1 ∈ identityCols
    · simpa [List.filter_cons, hc] using ih
    · simpa [List.filter_cons, hc] using ih

lemma round2_zero : round2 0 = 0 := by
  norm_num [round2, roundHalfEven]

lemma round2_threeTenths : round2 (3/10) = 3/10 := by
  have h30 : ((3:ℚ)/10) * 100 = ((30:ℤ):ℚ) := by norm_num
  have hfloor : Int.floor (((3:ℚ)/10) * 100) = 30 := by
    rw [h30, Int.floor_intCast]
  norm_num [round2, roundHalfEven, hfloor, h30]

/-- A concrete input table used to exercise the processor: one identity
column, one feedback column with a fast-path cell, a missing cell and a
blank cell, and one column with only missing cells. -/
def dfW : Table :=
  [("Timestamp", [some "t1", some "t2"]),
   ("Comments", [some "Yes", none, some "   "]),
   ("Extra", [none, none])]

/-- The report the program produces for `dfW`. -/
def repW : Report :=
  [("Comments", [("Yes", "Positive", 3/10), ("   ", "Neutral", 0)]),
   ("Extra", [])]

lemma process_dfW :
    process_feedback detEn trId zeroScore zeroScore (some dfW) =
      some (.ok repW) := by
  have h1 : process_feedback detEn trId zeroScore zeroScore (some dfW) =
      some (.ok [("Comments", [("Yes", "Positive", round2 (3/10)),
        ("   ", "Neutral", round2 0)]), ("Extra", [])]) := rfl
  rw [h1, round2_zero, round2_threeTenths]
  rfl

/-- C5 counterexample: a column holding the single whitespace-only cell
"   " (non-null, blank after trimming).  `dropna` keeps it, so it is
passed to the classifier and shows up in the report as
("   ", Neutral, 0.0) — the claim that blank cells are excluded from the
Report and never classified is false. -/
theorem report_includes_blank_cell :
    process_feedback detEn trId zeroScore zeroScore (some [("Q", [some "   "])]) =
      some (.ok [("Q", [("   ", "Neutral", 0)])]) := by
  have h1 : process_feedback detEn trId zeroScore zeroScore
      (some [("Q", [some "   "])]) =
      some (.ok [("Q", [("   ", "Neutral", round2 0)])]) := rfl
  rw [h1, round2_zero]

/-- C5 amended: only missing (null/NaN) cells are excluded from the
Report.  Every non-null cell of a retained column — blank ones
included — appears in that column's entry; a cell that is blank after
trimming is classified by the empty guard and appears as
(text, Neutral, 0.0). -/
theorem report_excludes_only_null (det : String → Except Exc String)
    (tr : String → String → Except Exc String) (v tb : String → ℚ)
    (df : Table) (rep : Report)
    (h : process_feedback det tr v tb (some df) = some (.ok rep)) :
    ∀ i (h1 : i < rep.length) (h2 : i < (dropIdentity df).length),
      (∀ t, some t ∈ ((dropIdentity df).get ⟨i, h2⟩).2 →
        t ∈ (rep.get ⟨i, h1⟩).2.map (fun r => r.1)) ∧
      (∀ t, some t ∈ ((dropIdentity df).get ⟨i, h2⟩).2 → pyStrip t = "" →
        (t, "Neutral", (0:ℚ)) ∈ (rep.get ⟨i, h1⟩).2) := by
  intro i h1 h2
  have hpr := process_feedback_some det tr v tb df rep h
  have hcol := mapE_ok_get (analyzeColumn det tr v tb) (dropIdentity df) rep hpr i h2 h1
  obtain ⟨hname, hmap⟩ := analyzeColumn_ok det tr v tb _ _ hcol
  constructor
  · intro t ht
    have htf : t ∈ ((dropIdentity df).get ⟨i, h2⟩).2.filterMap id :=
      List.mem_filterMap.mpr ⟨some t, ht, rfl⟩
    obtain ⟨row, hrow, hrmem⟩ := mapE_ok_mem _ _ _ hmap t htf
    obtain ⟨hfst, _⟩ := scoreCell_ok det tr v tb t row hrow
    exact List.mem_map.mpr ⟨row, hrmem, hfst⟩
  · intro t ht hblank
    have htf : t ∈ ((dropIdentity df).get ⟨i, h2⟩).2.filterMap id :=
      List.mem_filterMap.mpr ⟨some t, ht, rfl⟩
    obtain ⟨row, hrow, hrmem⟩ := mapE_ok_mem _ _ _ hmap t htf
    have hana : analyze_sentiment det tr v tb (some t) = .ok ("Neutral", 0) :=
      analyze_sentiment_empty_guard det tr v tb (some t) (Or.inr ⟨t, rfl, hblank⟩)
    have hrow2 : scoreCell det tr v tb t = .ok (t, "Neutral", round2 0) := by
      unfold scoreCell
      rw [hana]
    rw [hrow2] at hrow
    simp only [Except.ok.injEq] at hrow
    rw [← hrow, round2_zero] at hrmem
    exact hrmem

/-- C5 witness: the amended theorem applied to `dfW` — the blank cell
"   " of the "Comments" column appears in the report entry, scored
(Neutral, 0.0). -/
theorem report_excludes_only_null_witness :
    "   " ∈ (repW.get ⟨0, by decide⟩).2.map (fun r => r.1) ∧
    ("   ", "Neutral", (0:ℚ)) ∈ (repW.get ⟨0, by decide⟩).2 :=
  ⟨(report_excludes_only_null detEn trId zeroScore zeroScore dfW repW process_dfW
      0 (by decide) (by decide)).1 "   " (by decide),
   (report_excludes_only_null detEn trId zeroScore zeroScore dfW repW process_dfW
      0 (by decide) (by decide)).2 "   " (by decide) (by decide)⟩

/-- C6: the Report's keys are exactly the input's column names with
Timestamp, Name, Roll No and Class removed (case-sensitive exact match,
position-independent; absent identity columns are simply not matched by
the filter, never an error), so no identity column name ever appears
among the Report keys. -/
theorem process_feedback_drops_identity (det : String → Except Exc String)
    (tr : String → String → Except Exc String) (v tb : String → ℚ)
    (df : Table) (rep : Report)
    (h : process_feedback det tr v tb (some df) = some (.ok rep)) :
    rep.map Prod.fst =
      (df.map Prod.fst).filter (fun n => !(identityCols.contains n)) ∧
    ∀ n ∈ identityCols, n ∉ rep.map Prod.fst := by
  have hpr := process_feedback_some det tr v tb df rep h
  have hfst : rep.map Prod.fst = (dropIdentity df).map Prod.fst :=
    mapE_ok_map_rel (analyzeColumn det tr v tb) Prod.fst Prod.fst
      (fun c entry hc => (analyzeColumn_ok det tr v tb c entry hc).1)
      (dropIdentity df) rep hpr
  have hkeys : rep.map Prod.fst =
      (df.map Prod.fst).filter (fun n => !(identityCols.contains n)) := by
    rw [hfst, dropIdentity_map_fst]
  refine ⟨hkeys, ?_⟩
  intro n hn hmem
  rw [hkeys] at hmem
  have hp := List.of_mem_filter hmem
  simp [hn] at hp

/-- C6 witness: the theorem applied to `dfW`, whose "Timestamp" column
is dropped. -/
theorem process_feedback_drops_identity_witness :
    repW.map Prod.fst =
      (dfW.map Prod.fst).filter (fun n => !(identityCols.contains n)) :=
  (process_feedback_drops_identity detEn trId zeroScore zeroScore dfW repW
    process_dfW).1

/-- C7: the Report has exactly one entry per retained column, in the
original column order; within an entry the row texts are exactly the
column's non-null cells in original row order; and a retained column
with no surviving cells still contributes an entry with an empty
sequence. -/
theorem process_feedback_preserves_order (det : String → Except Exc String)
    (tr : String → String → Except Exc String) (v tb : String → ℚ)
    (df : Table) (rep : Report)
    (h : process_feedback det tr v tb (some df) = some (.ok rep)) :
    rep.length = (dropIdentity df).length ∧
    ∀ i (h1 : i < rep.length) (h2 : i < (dropIdentity df).length),
      (rep.get ⟨i, h1⟩).1 = ((dropIdentity df).get ⟨i, h2⟩).1 ∧
      (rep.get ⟨i, h1⟩).2.map (fun r => r.1) =
        ((dropIdentity df).get ⟨i, h2⟩).2.filterMap id ∧
      (((dropIdentity df).get ⟨i, h2⟩).2.filterMap id = [] →
        (rep.get ⟨i, h1⟩).2 = []) := by
  have hpr := process_feedback_some det tr v tb df rep h
  refine ⟨mapE_ok_length _ _ _ hpr, ?_⟩
  intro i h1 h2
  have hcol := mapE_ok_get (analyzeColumn det tr v tb) (dropIdentity df) rep hpr i h2 h1
  obtain ⟨hname, hmap⟩ := analyzeColumn_ok det tr v tb _ _ hcol
  have htexts : (rep.get ⟨i, h1⟩).2.map (fun r => r.1) =
      ((dropIdentity df).get ⟨i, h2⟩).2.filterMap id := by
    have := mapE_ok_map_rel (scoreCell det tr v tb) id (fun r => r.1)
      (fun a b hb => (scoreCell_ok det tr v tb a b hb).1) _ _ hmap
    simpa using this
  refine ⟨hname, htexts, ?_⟩
  intro hnil
  rw [hnil] at hmap
  simp only [mapE, Except.ok.injEq] at hmap
  exact hmap.symm

/-- C7 witness: the theorem applied to `dfW` — two entries for the two
retained columns, and the all-null "Extra" column still has an entry,
with an empty sequence. -/
theorem process_feedback_preserves_order_witness :
    repW.length = (dropIdentity dfW).length ∧
    (repW.get ⟨1, by decide⟩).2 = [] :=
  ⟨(process_feedback_preserves_order detEn trId zeroScore zeroScore dfW repW
      process_dfW).1,
   ((process_feedback_preserves_order detEn trId zeroScore zeroScore dfW repW
      process_dfW).2 1 (by decide) (by decide)).2.2 (by decide)⟩

/-- C8: loading a `.zip` archive whose member list has no `.xlsx` and no
`.csv` member produces `none` — the printed-diagnostic LoadError path.
The embedding's `load_file` is total (`Option Table`), mirroring the
`try/except Exception` wrapper that turns any raised exception into a
diagnostic and `None`, so no unhandled exception is possible. -/
theorem load_file_zip_without_member (fs : FileSystem) (p : String)
    (names : List String)
    (hzip : pyEndsWith p ".zip" = true)
    (hx : pyEndsWith p ".xlsx" = false) (hc : pyEndsWith p ".csv" = false)
    (hn : fs.zipNamelist p = .ok names)
    (hno : ∀ n ∈ names, pyEndsWith n ".xlsx" = false ∧ pyEndsWith n ".csv" = false) :
    load_file fs p = none := by
  have hfilter : names.filter
      (fun f => pyEndsWith f ".xlsx" || pyEndsWith f ".csv") = [] := by
    rw [List.filter_eq_nil_iff]
    intro a ha
    obtain ⟨h1, h2⟩ := hno a ha
    simp [h1, h2]
  simp [load_file, hx, hc, hzip, hn, hfilter]

/-- A file system whose archive listing holds no spreadsheet or CSV
member. -/
def fsZipNoMember : FileSystem :=
  ⟨fun _ => .error (Exc.other "io"), fun _ => .error (Exc.other "io"),
   fun _ => .ok ["readme.txt", "notes.md"]⟩

/-- C8 witness: the theorem applied to a concrete archive holding only
"readme.txt" and "notes.md". -/
theorem load_file_zip_without_member_witness :
    load_file fsZipNoMember "arch.zip" = none :=
  load_file_zip_without_member fsZipNoMember "arch.zip"
    ["readme.txt", "notes.md"] (by decide) (by decide) (by decide) rfl (by decide)

/-- C10: dispatch is by case-sensitive suffix: any path ending in none
of ".xlsx"/".csv"/".zip" (exactly, case-sensitively) reaches the
unsupported-format branch and no table is returned — in particular
"data.CSV" and "sheet.XLSX" — and the same case-sensitive test selects
members inside an archive, so an archive holding only "member.CSV" and
"member.XLSX" yields no table either. -/
theorem load_file_case_sensitive_dispatch (fs : FileSystem) :
    (∀ p, pyEndsWith p ".xlsx" = false → pyEndsWith p ".csv" = false →
      pyEndsWith p ".zip" = false → load_file fs p = none) ∧
    load_file fs "data.CSV" = none ∧
    load_file fs "sheet.XLSX" = none ∧
    (fs.zipNamelist "arch.zip" = .ok ["member.CSV", "member.XLSX"] →
      load_file fs "arch.zip" = none) := by
  have hgen : ∀ p, pyEndsWith p ".xlsx" = false → pyEndsWith p ".csv" = false →
      pyEndsWith p ".zip" = false → load_file fs p = none := by
    intro p h1 h2 h3
    simp [load_file, h1, h2, h3]
  refine ⟨hgen, hgen _ (by decide) (by decide) (by decide),
    hgen _ (by decide) (by decide) (by decide), ?_⟩
  intro hn
  have ha1 : pyEndsWith "arch.zip" ".xlsx" = false := by decide
  have ha2 : pyEndsWith "arch.zip" ".csv" = false := by decide
  have ha3 : pyEndsWith "arch.zip" ".zip" = true := by decide
  have hfilter : (["member.CSV", "member.XLSX"].filter
      (fun f => pyEndsWith f ".xlsx" || pyEndsWith f ".csv")) = [] := by decide
  simp [load_file, ha1, ha2, ha3, hn, hfilter]

/-- A file system whose archive listing holds members whose extensions
differ from the supported ones only in letter case. -/
def fsCase : FileSystem :=
  ⟨fun _ => .ok [], fun _ => .ok [], fun _ => .ok ["member.CSV", "member.XLSX"]⟩

/-- C10 witness: the theorem applied to a concrete file system — the
upper-cased path "data.CSV" and the archive of upper-cased members both
load nothing. -/
theorem load_file_case_sensitive_dispatch_witness :
    load_file fsCase "data.CSV" = none ∧ load_file fsCase "arch.zip" = none :=
  ⟨(load_file_case_sensitive_dispatch fsCase).2.1,
   (load_file_case_sensitive_dispatch fsCase).2.2.2 rfl⟩

end Feedback
